import Mathlib

/-!
Verification of `projects/sampleCounts/sample_uniform.py` (HPSandbox).

The script reads a sparse transition matrix `T`, builds for every state `i`
a jump table `jumps[i] = (possible_j, jprobs)` (the nonzero column indices of
row `i` and the corresponding values), optionally loads/saves this table from
a pickle cache `<matrixfile>.jumps`, and then for `NumTrials` trials samples
`NumSamplesPerState[i]` transitions from every state `i`, incrementing a
sparse count matrix `C` and writing `C` to
`tCounts.uniform.<outName>.<nsamples>.<trial>.mtx` after each trial.

The embedding below follows the source line by line:
  * the sparse matrix is embedded densely as a list of rows of rationals;
  * randomness is an explicit stream `us : Nat → ℚ` of uniform draws together
    with a cursor threaded through the loop state;
  * sparse `lil_matrix` reads/writes carry the same bound checks as scipy
    (an out-of-range access is a runtime fault);
  * the count matrix `C` is embedded as a function `Nat → Nat → Nat`.
-/

namespace SampleUniform

/-- Dense embedding of the sparse transition matrix: a list of rows. -/
abbrev Mat := List (List ℚ)

/-- The jump dictionary `jumps : {i : (possible_j, jprobs)}` of the source,
embedded as a list indexed by state. -/
abbrev Jumps := List (List Nat × List ℚ)

/-- Embedding of `possible_j = T[i,:].nonzero()[1]`: the column indices of the
nonzero entries of a row, in the matrix's native (increasing) order. -/
def nonzeroCols (row : List ℚ) : List Nat :=
  (List.range row.length).filter (fun j => decide (row.getD j 0 ≠ 0))

/-- Embedding of `jprobs = np.array(T[i,possible_j].todense()).reshape(...)`:
the values of the row at its nonzero columns, in the same order. -/
def jprobsOf (row : List ℚ) : List ℚ :=
  (nonzeroCols row).map (fun j => row.getD j 0)

/-- Embedding of the `for i in range(NumStates): jumps[i] = (possible_j, jprobs)`
loop of the source (`NumStates = T.shape[0]`). -/
def buildJumps (T : Mat) : Jumps :=
  (List.range T.length).map (fun i => (nonzeroCols (T.getD i []), jprobsOf (T.getD i [])))

/-- Modelled from the spec: `draw_index` comes from `HelperTools`, which is not
part of the sources under verification.  Per §4.1 of the spec it performs
inverse-CDF (roulette-wheel) selection: given the unnormalized weights and a
uniform value `u` drawn from `[0, total_weight)`, it returns the smallest
index `k` such that the cumulative sum of `weights[0..k]` exceeds `u`.  When
no such index exists (empty weights, or `u` at or beyond the total mass) the
selection fails — per §9 of the spec the source raises an index-related
runtime fault in that situation, which the embedding renders as `none`. -/
def draw_index (weights : List ℚ) (u : ℚ) : Option Nat :=
  (List.range weights.length).find? (fun k => decide (u < (weights.take (k + 1)).sum))

/-- Failure modes of the sampling loop.  The source defines no exception
classes of its own: the only error it can produce at sampling time is an
index-related runtime fault (a failed roulette draw or an out-of-range
subscript).  The named errors `EmptyJumpTableError` and
`DegenerateDistributionError` appear only in the spec's error taxonomy (§7);
they are included here as constructors so that statements about them can be
formalized, and the theorems below show the code never produces them. -/
inductive SampErr where
  | emptyJumpTableError
  | degenerateDistributionError
  | indexFault
  deriving DecidableEq

/-- The count matrix starts as `scipy.sparse.lil_matrix((NumStates, NumStates))`:
all entries zero. -/
def zeroC : Nat → Nat → Nat := fun _ _ => 0

/-- Embedding of `C[i,j] += 1` (pointwise increment). -/
def bump (C : Nat → Nat → Nat) (i j : Nat) : Nat → Nat → Nat :=
  fun a b => if a = i ∧ b = j then C a b + 1 else C a b

/-- State threaded through the sampling loops: the count matrix `C` and the
cursor `rk` into the stream of uniform random draws. -/
structure LoopState where
  C : Nat → Nat → Nat
  rk : Nat

/-- Embedding of one iteration of the innermost loop:
`j = possible_j[draw_index(jprobs)]; C[i,j] += 1`.
A failed draw, an out-of-range subscript into `possible_j`, or an
out-of-range write into the `N×N` matrix `C` is a runtime fault. -/
def stepSample (N : Nat) (jumps : Jumps) (us : Nat → ℚ) (i : Nat) (s : LoopState) :
    Except SampErr LoopState :=
  let pj := (jumps.getD i ([], [])).1
  let jp := (jumps.getD i ([], [])).2
  match draw_index jp (us s.rk) with
  | none => .error .indexFault
  | some d =>
    match pj.get? d with
    | none => .error .indexFault
    | some j =>
      if i < N ∧ j < N then .ok ⟨bump s.C i j, s.rk + 1⟩ else .error .indexFault

/-- Embedding of `for k in range(NumSamplesPerState[i]): ...`:
draw `count` transitions from state `i`.  A fault in any iteration
propagates (an uncaught Python exception aborts the loop). -/
def sampleFromState (N : Nat) (jumps : Jumps) (us : Nat → ℚ) (i : Nat) :
    Nat → LoopState → Except SampErr LoopState
  | 0, s => .ok s
  | c + 1, s =>
    match stepSample N jumps us i s with
    | .error e => .error e
    | .ok s' => sampleFromState N jumps us i c s'

/-- Embedding of `for i in range(NumStates): ...` specialized to an explicit
list of states, sampling `counts[i]` transitions from each. -/
def runStatesAux (N : Nat) (jumps : Jumps) (us : Nat → ℚ) (counts : List Nat) :
    List Nat → LoopState → Except SampErr LoopState
  | [], s => .ok s
  | i :: rest, s =>
    match sampleFromState N jumps us i (counts.getD i 0) s with
    | .error e => .error e
    | .ok s' => runStatesAux N jumps us counts rest s'

/-- One trial's inner loop: sample from every state `0 .. N-1` in order. -/
def runTrialStates (N : Nat) (jumps : Jumps) (us : Nat → ℚ) (counts : List Nat)
    (s : LoopState) : Except SampErr LoopState :=
  runStatesAux N jumps us counts (List.range N) s

/-- Embedding of the output filename
`'tCounts.uniform.%s.%d.%d.mtx' % (outName, nsamples, trial)`. -/
def fileName (outName : String) (nsamples : Int) (trial : Nat) : String :=
  "tCounts.uniform." ++ outName ++ "." ++ toString nsamples ++ "." ++
    toString trial ++ ".mtx"

/-- Embedding of the trial loop `for trial in range(NumTrials)`, with `t`
trials remaining and `idx` the index of the current trial.  After each trial
the current matrix `C` is written out (collected here, snapshot plus
filename); note the source never resets `C` between trials. -/
def runTrialsAux (N : Nat) (jumps : Jumps) (us : Nat → ℚ) (counts : List Nat)
    (outName : String) (nsamples : Int) :
    Nat → Nat → LoopState → Except SampErr (List ((Nat → Nat → Nat) × String))
  | 0, _, _ => .ok []
  | t + 1, idx, s =>
    match runTrialStates N jumps us counts s with
    | .error e => .error e
    | .ok s' =>
      match runTrialsAux N jumps us counts outName nsamples t (idx + 1) s' with
      | .error e => .error e
      | .ok rest => .ok ((s'.C, fileName outName nsamples idx) :: rest)

/-- The whole sampling phase: `C` is created zero once, then `ntrials` trials
run in sequence, each writing the current `C`. -/
def runTrials (N : Nat) (jumps : Jumps) (us : Nat → ℚ) (counts : List Nat)
    (outName : String) (nsamples : Int) (ntrials : Nat) :
    Except SampErr (List ((Nat → Nat → Nat) × String)) :=
  runTrialsAux N jumps us counts outName nsamples ntrials 0 ⟨zeroC, 0⟩

/-- Errors of the whole program beyond the early exits: a `ValueError` from
`int(...)`, an uncaught I/O failure while pickling the jump cache, or a
sampling-time fault. -/
inductive MainErr where
  | badInt
  | saveFailed
  | samp (e : SampErr)
  deriving DecidableEq

/-- Observable outcome of a program run: an early `sys.exit(1)` with the
usage message, an early `sys.exit(1)` for a missing matrix file, an uncaught
exception (crash), or normal completion with the written outputs. -/
inductive RunOutcome where
  | usageExit (code : Nat) (msg : String)
  | missingFileExit (code : Nat)
  | abort (e : MainErr)
  | done (outs : List ((Nat → Nat → Nat) × String))

/-- The usage string printed by the script. -/
def usage : String :=
  "Usage: sample.py infile.mtx microstates.dat NumSamplesPerState NumTrials outName"

/-- Embedding of the whole script.  `argv` includes the program name in
position 0 (as `sys.argv` does); `parseInt` is the semantics of the Python
builtin `int(...)` (external to this repository; `none` = the `ValueError` it
raises on a malformed string); `fs` maps a path to the matrix stored there
(`none` = file absent); `cacheFs` plays the same role for the pickle cache;
`saveOk` tells whether writing the cache file succeeds; `us` is the uniform
random stream.  Faithful to the source's order of effects: the argument-count
check runs first, then `int(...)` parsing, then the matrix file existence
check, then the cache branch (on a miss the tables are built and pickled with
no exception handling around the write), then the trial loop.  Reading the
microstate info file is omitted: the source only prints `mInfo` and never
uses it.  Negative `nsamples`/`ntrials` behave as in Python: `range(n)` is
empty for `n ≤ 0`, hence the `Int.toNat` clampings. -/
def mainEntry (argv : List String) (parseInt : String → Option Int)
    (fs : String → Option Mat)
    (cacheFs : String → Option Jumps) (saveOk : Bool) (us : Nat → ℚ) : RunOutcome :=
  if argv.length < 6 then .usageExit 1 usage
  else
    let microTFn := argv.getD 1 ""
    match parseInt (argv.getD 3 ""), parseInt (argv.getD 4 "") with
    | some nsamples, some ntrials =>
      match fs microTFn with
      | none => .missingFileExit 1
      | some T =>
        let N := T.length
        let outName := argv.getD 5 ""
        let counts : List Nat := List.replicate N nsamples.toNat
        let proceed : Jumps → RunOutcome := fun jumps =>
          match runTrials N jumps us counts outName nsamples ntrials.toNat with
          | .ok outs => .done outs
          | .error e => .abort (.samp e)
        match cacheFs (microTFn ++ ".jumps") with
        | some jumps => proceed jumps
        | none =>
          if saveOk then proceed (buildJumps T) else .abort .saveFailed
    | _, _ => .abort .badInt


/-! ### Basic lemmas about the embedded operations -/

theorem draw_index_nil (u : ℚ) : draw_index [] u = none := rfl

theorem draw_index_single (w u : ℚ) (h : u < w) : draw_index [w] u = some 0 := by
  simp [draw_index, List.range_succ]
  simpa using h

theorem nonzeroCols_eq_nil (row : List ℚ) (h : ∀ x ∈ row, x = 0) :
    nonzeroCols row = [] := by
  apply List.filter_eq_nil_iff.mpr
  intro j hj
  rcases List.mem_range.mp hj with hlt
  rw [List.getD_eq_getElem row 0 hlt]
  have hz : row[j] = 0 := h _ (List.getElem_mem hlt)
  simp [hz]

theorem buildJumps_length (T : Mat) : (buildJumps T).length = T.length := by
  simp [buildJumps]

theorem buildJumps_getD (T : Mat) (i : Nat) (hi : i < T.length)
    (d : List Nat × List ℚ) :
    (buildJumps T).getD i d = (nonzeroCols (T.getD i []), jprobsOf (T.getD i [])) := by
  rw [List.getD_eq_getElem?_getD, buildJumps, List.getElem?_map,
    List.getElem?_range hi]
  rfl

/-! ### C7: zero requested samples do nothing -/

/-- C7: for every state, requesting `count = 0` samples yields an empty
outcome sequence (no draw happens: the random cursor does not advance) and
leaves the count accumulator `C` completely unchanged — the inner
`for k in range(0)` loop body never executes, so the loop state is returned
untouched. -/
theorem claim_C7_zero_samples_no_change (N : Nat) (jumps : Jumps) (us : Nat → ℚ)
    (i : Nat) (s : LoopState) :
    sampleFromState N jumps us i 0 s = .ok s := rfl

/-! ### C8: usage check -/

/-- C8: whenever the script is invoked with fewer than 5 command-line
arguments (beyond the program name itself, i.e. `len(sys.argv) < 6`), it
exits with code 1 and the usage message — and this happens before any input
file is consulted: the outcome is the same for every filesystem `fs`,
cache `cacheFs`, integer parser, and random stream. -/
theorem claim_C8_usage_exit (argv : List String) (h : argv.length - 1 < 5) :
    ∀ (parseInt : String → Option Int) (fs : String → Option Mat)
      (cacheFs : String → Option Jumps) (saveOk : Bool) (us : Nat → ℚ),
      mainEntry argv parseInt fs cacheFs saveOk us = .usageExit 1 usage := by
  intro parseInt fs cacheFs saveOk us
  have h6 : argv.length < 6 := by omega
  simp [mainEntry, h6]

theorem claim_C8_usage_exit_witness :
    mainEntry ["sample.py"] (fun _ => none) (fun _ => none) (fun _ => none)
      true (fun _ => 0) = .usageExit 1 usage :=
  claim_C8_usage_exit ["sample.py"] (by decide) _ _ _ _ _

/-! ### C2: sampling from a state with an all-zero row -/

/-- C2 (counterexample): sampling `count = 1 > 0` transitions from the single
state of the all-zero 1×1 matrix makes the run fail with an index-related
runtime fault, not with one of the named errors
`EmptyJumpTableError`/`DegenerateDistributionError` — the source defines no
such exception classes, so the claim that the named error is raised is false
on the code. -/
theorem claim_C2_counterexample :
    runTrials 1 (buildJumps [[(0 : ℚ)]]) (fun _ => 0) [1] "m" 1 1
        = .error .indexFault
    ∧ SampErr.indexFault ≠ SampErr.emptyJumpTableError
    ∧ SampErr.indexFault ≠ SampErr.degenerateDistributionError :=
  ⟨rfl, by decide, by decide⟩

/-- C2 (amended): for every state whose transition-matrix row is entirely
zero, requesting `count > 0` samples from that state makes the sampling loop
fail — the state is not silently skipped — but the failure is the
index-related runtime fault of a failed roulette draw on an empty jump
table, not a named `EmptyJumpTableError`/`DegenerateDistributionError`
(the code defines no such errors). -/
theorem claim_C2_all_zero_row_faults (T : Mat) (us : Nat → ℚ) (i c : Nat)
    (s : LoopState) (hi : i < T.length) (hz : ∀ x ∈ T.getD i [], x = 0)
    (hc : 0 < c) :
    sampleFromState T.length (buildJumps T) us i c s = .error .indexFault := by
  obtain ⟨c', rfl⟩ : ∃ c', c = c' + 1 := ⟨c - 1, by omega⟩
  have hj : (buildJumps T)[i]?.getD ([], []) = ([], []) := by
    rw [← List.getD_eq_getElem?_getD, buildJumps_getD T i hi]
    simp only [jprobsOf, nonzeroCols_eq_nil _ hz, List.map_nil]
  simp [sampleFromState, stepSample, hj, draw_index_nil]

theorem claim_C2_all_zero_row_faults_witness :
    sampleFromState ([[(0 : ℚ)]] : Mat).length (buildJumps [[(0 : ℚ)]])
      (fun _ => 0) 0 1 ⟨zeroC, 0⟩ = .error .indexFault :=
  claim_C2_all_zero_row_faults [[(0 : ℚ)]] (fun _ => 0) 0 1 ⟨zeroC, 0⟩
    (by decide) (by decide) (by decide)

/-! ### C3: failure to save the jump-table cache -/

/-- C3 (counterexample): with a concrete, otherwise-successful input (a 1×1
matrix, 0 samples per state, 2 trials, cache file absent), a run in which
writing the cache file fails aborts with that failure, whereas the identical
run in which the write succeeds completes and emits its outputs.  The
`pickle.dump` call of the source has no exception handling around it, so the
claim that a failed cache save is non-fatal is false on the code. -/
theorem claim_C3_counterexample :
    mainEntry ["sample.py", "T.mtx", "micro.dat", "0", "2", "out"]
      (fun s => if s = "0" then some 0 else if s = "2" then some 2 else none)
      (fun p => if p = "T.mtx" then some [[(1 : ℚ)]] else none)
      (fun _ => none) false (fun _ => 0) = .abort .saveFailed
    ∧ mainEntry ["sample.py", "T.mtx", "micro.dat", "0", "2", "out"]
      (fun s => if s = "0" then some 0 else if s = "2" then some 2 else none)
      (fun p => if p = "T.mtx" then some [[(1 : ℚ)]] else none)
      (fun _ => none) true (fun _ => 0)
      = .done [(zeroC, fileName "out" 0 0), (zeroC, fileName "out" 0 1)] :=
  ⟨rfl, rfl⟩

/-- C3 (amended): if the jump-table cache file is absent and writing it
fails, the run aborts with that failure before any sampling output is
produced — the uncaught exception from the cache write is fatal, sampling
does not proceed on the in-memory tables. -/
theorem claim_C3_save_failure_aborts (argv : List String)
    (parseInt : String → Option Int) (fs : String → Option Mat)
    (cacheFs : String → Option Jumps) (us : Nat → ℚ) (a b : Int) (T : Mat)
    (hlen : ¬ argv.length < 6)
    (h3 : parseInt (argv.getD 3 "") = some a)
    (h4 : parseInt (argv.getD 4 "") = some b)
    (hfs : fs (argv.getD 1 "") = some T)
    (hc : cacheFs (argv.getD 1 "" ++ ".jumps") = none) :
    mainEntry argv parseInt fs cacheFs false us = .abort .saveFailed := by
  simp only [List.getD_eq_getElem?_getD] at h3 h4 hfs hc
  simp [mainEntry, hlen, h3, h4, hfs, hc]

theorem claim_C3_save_failure_aborts_witness :
    mainEntry ["sample.py", "T.mtx", "micro.dat", "0", "2", "out"]
      (fun s => if s = "0" then some 0 else if s = "2" then some 2 else none)
      (fun p => if p = "T.mtx" then some [[(1 : ℚ)]] else none)
      (fun _ => none) false (fun _ => 0) = .abort .saveFailed :=
  claim_C3_save_failure_aborts _ _ _ _ _ 0 2 [[(1 : ℚ)]]
    (by decide) rfl rfl rfl rfl

/-! ### C5: the jump-table builder -/

/-- C5: the jump dictionary has one entry per state `0 .. N-1`
(`(buildJumps T).length = T.length`), and for every state `i` the entry is a
pair whose destination list `possible_j` holds exactly the nonzero column
indices of row `i`, in the matrix's native (strictly increasing) order, and
whose weight list `jprobs` has the same length and pairs position `k` with
the row value at the `k`-th destination. -/
theorem claim_C5_build_jumps (T : Mat) (i : Nat) (hi : i < T.length) :
    (buildJumps T).length = T.length ∧
    (∀ j : Nat, j ∈ ((buildJumps T).getD i ([], [])).1 ↔
        j < (T.getD i []).length ∧ (T.getD i []).getD j 0 ≠ 0) ∧
    List.Pairwise (· < ·) ((buildJumps T).getD i ([], [])).1 ∧
    ((buildJumps T).getD i ([], [])).2.length
      = ((buildJumps T).getD i ([], [])).1.length ∧
    (∀ k : Nat, k < ((buildJumps T).getD i ([], [])).1.length →
        ((buildJumps T).getD i ([], [])).2.getD k 0
          = (T.getD i []).getD (((buildJumps T).getD i ([], [])).1.getD k 0) 0) := by
  rw [buildJumps_getD T i hi]
  refine ⟨buildJumps_length T, ?_, ?_, ?_, ?_⟩
  · intro j
    simp [nonzeroCols, List.mem_filter, List.mem_range, and_comm]
  · exact (List.pairwise_lt_range _).sublist (List.filter_sublist _)
  · simp [jprobsOf]
  · intro k hk
    have hk2 : k < (jprobsOf (T.getD i [])).length := by
      simpa [jprobsOf] using hk
    rw [List.getD_eq_getElem _ 0 hk2, List.getD_eq_getElem _ 0 hk]
    simp [jprobsOf]

theorem claim_C5_build_jumps_witness :
    ([[(0 : ℚ), 1], [2, 0]] : Mat).length = 1 + 1 ∧
    ((buildJumps [[(0 : ℚ), 1], [2, 0]]).length
        = ([[(0 : ℚ), 1], [2, 0]] : Mat).length ∧
      (∀ j : Nat, j ∈ ((buildJumps [[(0 : ℚ), 1], [2, 0]]).getD 1 ([], [])).1 ↔
          j < (([[(0 : ℚ), 1], [2, 0]] : Mat).getD 1 []).length ∧
            (([[(0 : ℚ), 1], [2, 0]] : Mat).getD 1 []).getD j 0 ≠ 0) ∧
      List.Pairwise (· < ·) ((buildJumps [[(0 : ℚ), 1], [2, 0]]).getD 1 ([], [])).1 ∧
      ((buildJumps [[(0 : ℚ), 1], [2, 0]]).getD 1 ([], [])).2.length
        = ((buildJumps [[(0 : ℚ), 1], [2, 0]]).getD 1 ([], [])).1.length ∧
      (∀ k : Nat, k < ((buildJumps [[(0 : ℚ), 1], [2, 0]]).getD 1 ([], [])).1.length →
          ((buildJumps [[(0 : ℚ), 1], [2, 0]]).getD 1 ([], [])).2.getD k 0
            = (([[(0 : ℚ), 1], [2, 0]] : Mat).getD 1 []).getD
                (((buildJumps [[(0 : ℚ), 1], [2, 0]]).getD 1 ([], [])).1.getD k 0) 0)) :=
  ⟨rfl, claim_C5_build_jumps [[(0 : ℚ), 1], [2, 0]] 1 (by decide)⟩

/-! ### Structural lemmas about the sampling loops -/

theorem stepSample_ok_elim {N : Nat} {jumps : Jumps} {us : Nat → ℚ} {i : Nat}
    {s s' : LoopState} (h : stepSample N jumps us i s = .ok s') :
    ∃ j, j ∈ (jumps.getD i ([], [])).1 ∧ i < N ∧ j < N ∧
      s'.C = bump s.C i j ∧ s'.rk = s.rk + 1 := by
  simp only [stepSample] at h
  split at h
  · exact absurd h (by simp)
  · split at h
    · exact absurd h (by simp)
    · rename_i j hj
      split at h
      · rename_i hb
        injection h with h'
        refine ⟨j, ?_, hb.1, hb.2, ?_, ?_⟩
        · exact List.get?_mem hj
        · rw [← h']
        · rw [← h']
      · exact absurd h (by simp)

theorem stepSample_mono {N : Nat} {jumps : Jumps} {us : Nat → ℚ} {i : Nat}
    {s s' : LoopState} (h : stepSample N jumps us i s = .ok s') :
    ∀ a b, s.C a b ≤ s'.C a b := by
  obtain ⟨j, _, _, _, hC, _⟩ := stepSample_ok_elim h
  intro a b
  rw [hC]
  by_cases hab : a = i ∧ b = j <;> simp [bump, hab]

theorem sampleFromState_mono {N : Nat} {jumps : Jumps} {us : Nat → ℚ} {i : Nat} :
    ∀ {c : Nat} {s s' : LoopState},
      sampleFromState N jumps us i c s = .ok s' → ∀ a b, s.C a b ≤ s'.C a b := by
  intro c
  induction c with
  | zero =>
    intro s s' h a b
    simp only [sampleFromState] at h
    injection h with h'
    rw [h']
  | succ c ih =>
    intro s s' h a b
    simp only [sampleFromState] at h
    split at h
    · exact absurd h (by simp)
    · exact le_trans (stepSample_mono (by assumption) a b) (ih h a b)

theorem runStatesAux_mono {N : Nat} {jumps : Jumps} {us : Nat → ℚ}
    {counts : List Nat} :
    ∀ {l : List Nat} {s s' : LoopState},
      runStatesAux N jumps us counts l s = .ok s' → ∀ a b, s.C a b ≤ s'.C a b := by
  intro l
  induction l with
  | nil =>
    intro s s' h a b
    simp only [runStatesAux] at h
    injection h with h'
    rw [h']
  | cons i rest ih =>
    intro s s' h a b
    simp only [runStatesAux] at h
    split at h
    · exact absurd h (by simp)
    · exact le_trans (sampleFromState_mono (by assumption) a b) (ih h a b)

theorem runTrialStates_mono {N : Nat} {jumps : Jumps} {us : Nat → ℚ}
    {counts : List Nat} {s s' : LoopState}
    (h : runTrialStates N jumps us counts s = .ok s') :
    ∀ a b, s.C a b ≤ s'.C a b :=
  runStatesAux_mono h

/-- Invariant of the count matrix: every positive entry `(a, b)` has `b`
among the destinations `possible_j` of state `a`'s jump table. -/
def JumpOK (jumps : Jumps) (C : Nat → Nat → Nat) : Prop :=
  ∀ a b, 0 < C a b → b ∈ (jumps.getD a ([], [])).1

theorem stepSample_jumpOK {N : Nat} {jumps : Jumps} {us : Nat → ℚ} {i : Nat}
    {s s' : LoopState} (h : stepSample N jumps us i s = .ok s')
    (hC : JumpOK jumps s.C) : JumpOK jumps s'.C := by
  obtain ⟨j, hmem, _, _, hC', _⟩ := stepSample_ok_elim h
  intro a b hpos
  rw [hC'] at hpos
  by_cases hab : a = i ∧ b = j
  · rw [hab.1, hab.2]
    exact hmem
  · rw [bump, if_neg hab] at hpos
    exact hC a b hpos

theorem sampleFromState_jumpOK {N : Nat} {jumps : Jumps} {us : Nat → ℚ} {i : Nat} :
    ∀ {c : Nat} {s s' : LoopState},
      sampleFromState N jumps us i c s = .ok s' → JumpOK jumps s.C →
        JumpOK jumps s'.C := by
  intro c
  induction c with
  | zero =>
    intro s s' h hC
    simp only [sampleFromState] at h
    injection h with h'
    rw [← h']
    exact hC
  | succ c ih =>
    intro s s' h hC
    simp only [sampleFromState] at h
    split at h
    · exact absurd h (by simp)
    · exact ih h (stepSample_jumpOK (by assumption) hC)

theorem runStatesAux_jumpOK {N : Nat} {jumps : Jumps} {us : Nat → ℚ}
    {counts : List Nat} :
    ∀ {l : List Nat} {s s' : LoopState},
      runStatesAux N jumps us counts l s = .ok s' → JumpOK jumps s.C →
        JumpOK jumps s'.C := by
  intro l
  induction l with
  | nil =>
    intro s s' h hC
    simp only [runStatesAux] at h
    injection h with h'
    rw [← h']
    exact hC
  | cons i rest ih =>
    intro s s' h hC
    simp only [runStatesAux] at h
    split at h
    · exact absurd h (by simp)
    · exact ih h (sampleFromState_jumpOK (by assumption) hC)

theorem runTrialsAux_jumpOK {N : Nat} {jumps : Jumps} {us : Nat → ℚ}
    {counts : List Nat} {outName : String} {nsamples : Int} :
    ∀ {n idx : Nat} {s : LoopState} {outs : List ((Nat → Nat → Nat) × String)},
      runTrialsAux N jumps us counts outName nsamples n idx s = .ok outs →
        JumpOK jumps s.C → ∀ p ∈ outs, JumpOK jumps p.1 := by
  intro n
  induction n with
  | zero =>
    intro idx s outs h hC p hp
    simp only [runTrialsAux] at h
    injection h with h'
    rw [← h'] at hp
    exact absurd hp (List.not_mem_nil p)
  | succ n ih =>
    intro idx s outs h hC p hp
    simp only [runTrialsAux] at h
    split at h
    · exact absurd h (by simp)
    · rename_i s' hs'
      split at h
      · exact absurd h (by simp)
      · rename_i rest hrest
        injection h with h'
        have hC' : JumpOK jumps s'.C := runStatesAux_jumpOK hs' hC
        rw [← h'] at hp
        rcases List.mem_cons.mp hp with hhead | htail
        · rw [hhead]
          exact hC'
        · exact ih hrest hC' p htail

/-- Each successful call of the trial loop emits one snapshot per remaining
trial, its filename indexed by the running trial counter. -/
theorem runTrialsAux_names {N : Nat} {jumps : Jumps} {us : Nat → ℚ}
    {counts : List Nat} {outName : String} {nsamples : Int} :
    ∀ {n idx : Nat} {s : LoopState} {outs : List ((Nat → Nat → Nat) × String)},
      runTrialsAux N jumps us counts outName nsamples n idx s = .ok outs →
        outs.length = n ∧
          ∀ t, t < n →
            (outs.getD t (zeroC, "")).2 = fileName outName nsamples (idx + t) := by
  intro n
  induction n with
  | zero =>
    intro idx s outs h
    simp only [runTrialsAux] at h
    injection h with h'
    rw [← h']
    exact ⟨rfl, fun t ht => absurd ht (by omega)⟩
  | succ n ih =>
    intro idx s outs h
    simp only [runTrialsAux] at h
    split at h
    · exact absurd h (by simp)
    · rename_i s' hs'
      split at h
      · exact absurd h (by simp)
      · rename_i rest hrest
        injection h with h'
        obtain ⟨hlen, hnames⟩ := ih hrest
        rw [← h']
        constructor
        · simp [hlen]
        · intro t ht
          match t with
          | 0 => simp
          | t' + 1 =>
            have := hnames t' (by omega)
            simp only [List.getD_cons_succ]
            rw [this]
            congr 1
            omega

/-- The matrices emitted by successive trials are pointwise nondecreasing:
the accumulator is never cleared between trials. -/
theorem runTrialsAux_chain {N : Nat} {jumps : Jumps} {us : Nat → ℚ}
    {counts : List Nat} {outName : String} {nsamples : Int} :
    ∀ {n idx : Nat} {s : LoopState} {outs : List ((Nat → Nat → Nat) × String)},
      runTrialsAux N jumps us counts outName nsamples n idx s = .ok outs →
        (∀ p ∈ outs, ∀ a b, s.C a b ≤ p.1 a b) ∧
          List.Chain' (fun p q => ∀ a b, p.1 a b ≤ q.1 a b) outs := by
  intro n
  induction n with
  | zero =>
    intro idx s outs h
    simp only [runTrialsAux] at h
    injection h with h'
    rw [← h']
    exact ⟨fun p hp => absurd hp (List.not_mem_nil p), List.chain'_nil⟩
  | succ n ih =>
    intro idx s outs h
    simp only [runTrialsAux] at h
    split at h
    · exact absurd h (by simp)
    · rename_i s' hs'
      split at h
      · exact absurd h (by simp)
      · rename_i rest hrest
        injection h with h'
        obtain ⟨hle, hchain⟩ := ih hrest
        have hss' : ∀ a b, s.C a b ≤ s'.C a b := runTrialStates_mono hs'
        rw [← h']
        constructor
        · intro p hp a b
          rcases List.mem_cons.mp hp with hhead | htail
          · rw [hhead]
            exact hss' a b
          · exact le_trans (hss' a b) (hle p htail a b)
        · refine List.chain'_cons'.mpr ⟨?_, hchain⟩
          intro q hq a b
          exact hle q (List.mem_of_mem_head? hq) a b

/-! ### Concrete helper computations for a 1-state deterministic chain -/

theorem stepSample_unit (C : Nat → Nat → Nat) (k : Nat) :
    stepSample 1 (buildJumps [[(1 : ℚ)]]) (fun _ => 0) 0 ⟨C, k⟩
      = .ok ⟨bump C 0 0, k + 1⟩ := by
  have hb : buildJumps [[(1 : ℚ)]] = [([0], [1])] := rfl
  have hd : draw_index [(1 : ℚ)] 0 = some 0 := draw_index_single 1 0 (by norm_num)
  rw [hb]
  simp [stepSample, hd, List.get?]

theorem runTrials_unit_one :
    runTrials 1 (buildJumps [[(1 : ℚ)]]) (fun _ => 0) [1] "m" 1 1
      = .ok [(bump zeroC 0 0, fileName "m" 1 0)] := by
  simp [runTrials, runTrialsAux, runTrialStates, runStatesAux, sampleFromState,
    stepSample_unit]

theorem runTrials_unit_two :
    runTrials 1 (buildJumps [[(1 : ℚ)]]) (fun _ => 0) [1] "m" 1 2
      = .ok [(bump zeroC 0 0, fileName "m" 1 0),
             (bump (bump zeroC 0 0) 0 0, fileName "m" 1 1)] := by
  simp [runTrials, runTrialsAux, runTrialStates, runStatesAux, sampleFromState,
    stepSample_unit]

/-! ### C1: the count matrix is NOT reset between trials -/

/-- C1 (counterexample): for the 1×1 matrix `[[1]]`, one sample per state and
two trials, the file written after the second trial holds the count 2 at
entry `(0,0)`, although only one transition was sampled during that trial:
the matrix handed to output after a trial contains the counts of all earlier
trials as well, because the source creates `C` once before the trial loop
and never resets it. -/
theorem claim_C1_counterexample :
    runTrials 1 (buildJumps [[(1 : ℚ)]]) (fun _ => 0) [1] "m" 1 2
      = .ok [(bump zeroC 0 0, fileName "m" 1 0),
             (bump (bump zeroC 0 0) 0 0, fileName "m" 1 1)]
    ∧ bump zeroC 0 0 0 0 = 1
    ∧ bump (bump zeroC 0 0) 0 0 0 0 = 2
    ∧ bump (bump zeroC 0 0) 0 0 0 0 ≠ 1 :=
  ⟨runTrials_unit_two, by decide, by decide, by decide⟩

/-- C1 (amended): the count matrix is created empty once, at the start of the
run — not once per trial — and is never reset: the matrix written after each
trial accumulates all transitions sampled so far, so its entries are
pointwise nondecreasing from one trial's output to the next. -/
theorem claim_C1_counts_accumulate (N : Nat) (jumps : Jumps) (us : Nat → ℚ)
    (counts : List Nat) (outName : String) (nsamples : Int) (ntrials : Nat)
    (outs : List ((Nat → Nat → Nat) × String))
    (h : runTrials N jumps us counts outName nsamples ntrials = .ok outs) :
    ∀ t, t + 1 < outs.length →
      ∀ a b, (outs.getD t (zeroC, "")).1 a b
        ≤ (outs.getD (t + 1) (zeroC, "")).1 a b := by
  have hchain := (runTrialsAux_chain h).2
  intro t ht a b
  have hcons := List.chain'_iff_get.mp hchain t (by omega)
  have e1 : outs.getD t (zeroC, "") = outs.get ⟨t, by omega⟩ := by
    rw [List.getD_eq_getElem _ _ (by omega), List.get_eq_getElem]
  have e2 : outs.getD (t + 1) (zeroC, "") = outs.get ⟨t + 1, by omega⟩ := by
    rw [List.getD_eq_getElem _ _ (by omega), List.get_eq_getElem]
  rw [e1, e2]
  exact hcons a b

theorem claim_C1_counts_accumulate_witness :
    (([(zeroC, fileName "m" 0 0), (zeroC, fileName "m" 0 1)] :
        List ((Nat → Nat → Nat) × String)).getD 0 (zeroC, "")).1 0 0
      ≤ (([(zeroC, fileName "m" 0 0), (zeroC, fileName "m" 0 1)] :
        List ((Nat → Nat → Nat) × String)).getD 1 (zeroC, "")).1 0 0 :=
  claim_C1_counts_accumulate 1 (buildJumps [[(1 : ℚ)]]) (fun _ => 0) [0] "m" 0 2
    [(zeroC, fileName "m" 0 0), (zeroC, fileName "m" 0 1)] rfl 0 (by decide) 0 0

/-! ### C9: the support of every emitted count matrix -/

/-- C9: on any successful run, every entry `(i, j)` of an emitted count
matrix that is positive has `j` among the destinations of state `i`'s jump
table, and in particular row `i` of the transition matrix is nonzero at
column `j`: the support of each output matrix is contained in the support of
the transition matrix.  (An out-of-bounds index from the weighted draw makes
the run fault rather than record a count, so no boundedness hypothesis on the
draw is needed beyond success of the run.) -/
theorem claim_C9_output_support (T : Mat) (us : Nat → ℚ) (counts : List Nat)
    (outName : String) (nsamples : Int) (ntrials : Nat)
    (outs : List ((Nat → Nat → Nat) × String))
    (h : runTrials T.length (buildJumps T) us counts outName nsamples ntrials
        = .ok outs) :
    ∀ p ∈ outs, ∀ i j, 0 < p.1 i j →
      j ∈ ((buildJumps T).getD i ([], [])).1 ∧ (T.getD i []).getD j 0 ≠ 0 := by
  have h0 : JumpOK (buildJumps T) zeroC := fun a b hb => absurd hb (by simp [zeroC])
  have hall := runTrialsAux_jumpOK h h0
  intro p hp i j hpos
  have hj := hall p hp i j hpos
  refine ⟨hj, ?_⟩
  by_cases hi : i < T.length
  · rw [buildJumps_getD T i hi] at hj
    simp only [nonzeroCols, List.mem_filter, List.mem_range,
      decide_eq_true_eq] at hj
    exact hj.2
  · exfalso
    rw [List.getD_eq_default _ _ (by rw [buildJumps_length]; omega)] at hj
    exact absurd hj (List.not_mem_nil j)

theorem claim_C9_output_support_witness :
    0 ∈ ((buildJumps [[(1 : ℚ)]]).getD 0 ([], [])).1 ∧
      (([[(1 : ℚ)]] : Mat).getD 0 []).getD 0 0 ≠ 0 :=
  claim_C9_output_support [[(1 : ℚ)]] (fun _ => 0) [1] "m" 1 1
    [(bump zeroC 0 0, fileName "m" 1 0)] runTrials_unit_one
    (bump zeroC 0 0, fileName "m" 1 0) (by simp) 0 0 (by decide)

/-! ### C6: number and names of the output files -/

/-- C6: on a successful run (`mainEntry` completes normally), exactly
`numTrials` output files are produced, where `numTrials` is the parsed
fourth argument, and the file written for trial `t` is named
`tCounts.uniform.<outName>.<nsamples>.<t>.mtx`, the trial index starting at 0
and increasing by one per trial. -/
theorem claim_C6_output_files (argv : List String) (parseInt : String → Option Int)
    (fs : String → Option Mat) (cacheFs : String → Option Jumps) (saveOk : Bool)
    (us : Nat → ℚ) (ns nt : Int) (outs : List ((Nat → Nat → Nat) × String))
    (h3 : parseInt (argv.getD 3 "") = some ns)
    (h4 : parseInt (argv.getD 4 "") = some nt)
    (h : mainEntry argv parseInt fs cacheFs saveOk us = .done outs) :
    outs.length = nt.toNat ∧
      ∀ t, t < nt.toNat →
        (outs.getD t (zeroC, "")).2 = fileName (argv.getD 5 "") ns t := by
  simp only [List.getD_eq_getElem?_getD] at h3 h4 ⊢
  by_cases hlen : argv.length < 6
  · simp [mainEntry, hlen] at h
  · cases hfs : fs (argv[1]?.getD "") with
    | none => simp [mainEntry, hlen, h3, h4, hfs] at h
    | some T =>
      cases hcache : cacheFs (argv[1]?.getD "" ++ ".jumps") with
      | some jumps =>
        cases hr : runTrials T.length jumps us (List.replicate T.length ns.toNat)
            (argv[5]?.getD "") ns nt.toNat with
        | ok outs2 =>
          simp [mainEntry, hlen, h3, h4, hfs, hcache, hr] at h
          obtain ⟨hl, hnames⟩ := runTrialsAux_names hr
          rw [← h]
          refine ⟨hl, fun t ht => ?_⟩
          have := hnames t (by omega)
          simpa using this
        | error e => simp [mainEntry, hlen, h3, h4, hfs, hcache, hr] at h
      | none =>
        cases saveOk with
        | false => simp [mainEntry, hlen, h3, h4, hfs, hcache] at h
        | true =>
          cases hr : runTrials T.length (buildJumps T) us
              (List.replicate T.length ns.toNat) (argv[5]?.getD "") ns nt.toNat with
          | ok outs2 =>
            simp [mainEntry, hlen, h3, h4, hfs, hcache, hr] at h
            obtain ⟨hl, hnames⟩ := runTrialsAux_names hr
            rw [← h]
            refine ⟨hl, fun t ht => ?_⟩
            have := hnames t (by omega)
            simpa using this
          | error e => simp [mainEntry, hlen, h3, h4, hfs, hcache, hr] at h

theorem claim_C6_output_files_witness :
    ([(zeroC, fileName "out" 0 0), (zeroC, fileName "out" 0 1)] :
        List ((Nat → Nat → Nat) × String)).length = (2 : Int).toNat ∧
      (([(zeroC, fileName "out" 0 0), (zeroC, fileName "out" 0 1)] :
          List ((Nat → Nat → Nat) × String)).getD 0 (zeroC, "")).2
        = fileName ((["sample.py", "T.mtx", "micro.dat", "0", "2", "out"] :
            List String).getD 5 "") 0 0 ∧
      (([(zeroC, fileName "out" 0 0), (zeroC, fileName "out" 0 1)] :
          List ((Nat → Nat → Nat) × String)).getD 1 (zeroC, "")).2
        = fileName ((["sample.py", "T.mtx", "micro.dat", "0", "2", "out"] :
            List String).getD 5 "") 0 1 :=
  ⟨(claim_C6_output_files ["sample.py", "T.mtx", "micro.dat", "0", "2", "out"]
      (fun s => if s = "0" then some 0 else if s = "2" then some 2 else none)
      (fun p => if p = "T.mtx" then some [[(1 : ℚ)]] else none)
      (fun _ => none) true (fun _ => 0) 0 2 _ rfl rfl rfl).1,
   (claim_C6_output_files ["sample.py", "T.mtx", "micro.dat", "0", "2", "out"]
      (fun s => if s = "0" then some 0 else if s = "2" then some 2 else none)
      (fun p => if p = "T.mtx" then some [[(1 : ℚ)]] else none)
      (fun _ => none) true (fun _ => 0) 0 2 _ rfl rfl rfl).2 0 (by decide),
   (claim_C6_output_files ["sample.py", "T.mtx", "micro.dat", "0", "2", "out"]
      (fun s => if s = "0" then some 0 else if s = "2" then some 2 else none)
      (fun p => if p = "T.mtx" then some [[(1 : ℚ)]] else none)
      (fun _ => none) true (fun _ => 0) 0 2 _ rfl rfl rfl).2 1 (by decide)⟩

/-! ### Repeated increments and single-destination states -/

/-- Iterated `C[i,j] += 1`: the effect of `c` increments at the same entry. -/
def bumpN (i j : Nat) : (Nat → Nat → Nat) → Nat → Nat → Nat → Nat
  | C, 0 => C
  | C, c + 1 => bumpN i j (bump C i j) c

theorem bumpN_apply (i j : Nat) :
    ∀ (c : Nat) (C : Nat → Nat → Nat) (a b : Nat),
      bumpN i j C c a b = C a b + (if a = i ∧ b = j then c else 0) := by
  intro c
  induction c with
  | zero => intro C a b; simp [bumpN]
  | succ c ih =>
    intro C a b
    have e : bumpN i j C (c + 1) = bumpN i j (bump C i j) c := rfl
    rw [e, ih]
    by_cases hab : a = i ∧ b = j
    · simp [bump, hab]
      omega
    · simp [bump, hab]

/-- Sampling from a state whose jump table is the single destination `j`
with weight 1 deterministically lands on `j` every time, provided the
uniform draws stay in `[0, 1)`: after `c` requested samples the count matrix
gained `c` at `(i, j)` and the random cursor advanced by `c`. -/
theorem sampleFromState_single (N : Nat) (jumps : Jumps) (us : Nat → ℚ)
    (i j : Nat) (hj : jumps.getD i ([], []) = ([j], [1]))
    (hiN : i < N) (hjN : j < N) (hus : ∀ n, 0 ≤ us n ∧ us n < 1) :
    ∀ (c : Nat) (C : Nat → Nat → Nat) (k : Nat),
      sampleFromState N jumps us i c ⟨C, k⟩ = .ok ⟨bumpN i j C c, k + c⟩ := by
  have hstep : ∀ (C : Nat → Nat → Nat) (k : Nat),
      stepSample N jumps us i ⟨C, k⟩ = .ok ⟨bump C i j, k + 1⟩ := by
    intro C k
    have hd : draw_index [(1 : ℚ)] (us k) = some 0 :=
      draw_index_single 1 (us k) (hus k).2
    simp only [stepSample, hj]
    simp [hd, List.get?, hiN, hjN]
  intro c
  induction c with
  | zero => intro C k; simp [sampleFromState, bumpN]
  | succ c ih =>
    intro C k
    simp only [sampleFromState, hstep C k]
    rw [ih (bump C i j) (k + 1)]
    have e : k + 1 + c = k + (c + 1) := by omega
    rw [e]
    rfl

/-! ### C4: the deterministic 3-state chain -/

/-- The count matrix produced by the 3-state deterministic chain scenario:
100 increments at each of `(0,1)`, `(1,2)` and `(2,0)`, starting from zero. -/
def detChainCounts : Nat → Nat → Nat :=
  bumpN 2 0 (bumpN 1 2 (bumpN 0 1 zeroC 100) 100) 100

/-- C4: for the 3-state transition matrix `[[0,1,0],[0,0,1],[1,0,0]]`,
`samplesPerState = 100` and `numTrials = 1`, any run whose uniform draws all
lie in `[0, 1)` emits exactly one count matrix, with entries
`(0,1) = 100`, `(1,2) = 100`, `(2,0) = 100` and zero everywhere else. -/
theorem claim_C4_deterministic_chain (us : Nat → ℚ)
    (h : ∀ n, 0 ≤ us n ∧ us n < 1) :
    runTrials 3 (buildJumps [[0, 1, 0], [0, 0, 1], [(1 : ℚ), 0, 0]]) us
        (List.replicate 3 100) "out" 100 1
        = .ok [(detChainCounts, fileName "out" 100 0)]
      ∧ detChainCounts 0 1 = 100 ∧ detChainCounts 1 2 = 100
      ∧ detChainCounts 2 0 = 100
      ∧ ∀ i j, detChainCounts i j ≠ 0 →
          (i = 0 ∧ j = 1) ∨ (i = 1 ∧ j = 2) ∨ (i = 2 ∧ j = 0) := by
  have h0 : (buildJumps [[0, 1, 0], [0, 0, 1], [(1 : ℚ), 0, 0]]).getD 0 ([], [])
      = ([1], [1]) := rfl
  have h1 : (buildJumps [[0, 1, 0], [0, 0, 1], [(1 : ℚ), 0, 0]]).getD 1 ([], [])
      = ([2], [1]) := rfl
  have h2 : (buildJumps [[0, 1, 0], [0, 0, 1], [(1 : ℚ), 0, 0]]).getD 2 ([], [])
      = ([0], [1]) := rfl
  have s0 := sampleFromState_single 3 _ us 0 1 h0 (by decide) (by decide) h 100 zeroC 0
  have s1 := sampleFromState_single 3 _ us 1 2 h1 (by decide) (by decide) h 100
    (bumpN 0 1 zeroC 100) 100
  have s2 := sampleFromState_single 3 _ us 2 0 h2 (by decide) (by decide) h 100
    (bumpN 1 2 (bumpN 0 1 zeroC 100) 100) 200
  refine ⟨?_, ?_, ?_, ?_, ?_⟩
  · have hr : List.range 3 = [0, 1, 2] := rfl
    simp [detChainCounts, runTrials, runTrialsAux, runTrialStates, runStatesAux,
      hr, s0, s1, s2]
  · simp [detChainCounts, bumpN_apply, zeroC]
  · simp [detChainCounts, bumpN_apply, zeroC]
  · simp [detChainCounts, bumpN_apply, zeroC]
  · intro i j hne
    simp only [detChainCounts, bumpN_apply, zeroC] at hne
    by_cases e1 : i = 0 ∧ j = 1
    · exact Or.inl e1
    · by_cases e2 : i = 1 ∧ j = 2
      · exact Or.inr (Or.inl e2)
      · by_cases e3 : i = 2 ∧ j = 0
        · exact Or.inr (Or.inr e3)
        · exfalso
          simp [e1, e2, e3] at hne

theorem claim_C4_deterministic_chain_witness :
    runTrials 3 (buildJumps [[0, 1, 0], [0, 0, 1], [(1 : ℚ), 0, 0]])
        (fun _ => 0) (List.replicate 3 100) "out" 100 1
        = .ok [(detChainCounts, fileName "out" 100 0)]
      ∧ detChainCounts 0 1 = 100
      ∧ ((0 = 0 ∧ 1 = 1) ∨ (0 = 1 ∧ 1 = 2) ∨ (0 = 2 ∧ 1 = 0)) :=
  ⟨(claim_C4_deterministic_chain (fun _ => 0) (fun n => by norm_num)).1,
   (claim_C4_deterministic_chain (fun _ => 0) (fun n => by norm_num)).2.1,
   (claim_C4_deterministic_chain (fun _ => 0) (fun n => by norm_num)).2.2.2.2 0 1
     (by simp [detChainCounts, bumpN_apply, zeroC])⟩

/-! ### C10: with a cache hit, only the matrix's shape matters -/

/-- C10: when the jump-table cache file exists, the whole observable outcome
of the run is a function of the cache contents and the matrix's shape alone:
two runs over matrices of the same number of rows but arbitrarily different
values, with the same cache, the same remaining inputs and the same random
stream, produce identical outcomes (the cached tables are never validated
against the current matrix). -/
theorem claim_C10_cache_ignores_values (argv : List String)
    (parseInt : String → Option Int) (fs1 fs2 : String → Option Mat)
    (cacheFs : String → Option Jumps) (saveOk : Bool) (us : Nat → ℚ)
    (T1 T2 : Mat) (jumps : Jumps)
    (h1 : fs1 (argv.getD 1 "") = some T1) (h2 : fs2 (argv.getD 1 "") = some T2)
    (hlen : T1.length = T2.length)
    (hc : cacheFs (argv.getD 1 "" ++ ".jumps") = some jumps) :
    mainEntry argv parseInt fs1 cacheFs saveOk us
      = mainEntry argv parseInt fs2 cacheFs saveOk us := by
  simp only [List.getD_eq_getElem?_getD] at h1 h2 hc
  by_cases hl : argv.length < 6
  · simp [mainEntry, hl]
  · cases hp3 : parseInt (argv[3]?.getD "") with
    | none => simp [mainEntry, hl, hp3]
    | some ns =>
      cases hp4 : parseInt (argv[4]?.getD "") with
      | none => simp [mainEntry, hl, hp3, hp4]
      | some nt => simp [mainEntry, hl, hp3, hp4, h1, h2, hc, hlen]

theorem claim_C10_cache_ignores_values_witness :
    mainEntry ["sample.py", "T.mtx", "micro.dat", "1", "1", "out"]
      (fun s => if s = "1" then some 1 else none)
      (fun p => if p = "T.mtx" then some [[(1 : ℚ)]] else none)
      (fun p => if p = "T.mtx.jumps" then some [([0], [1])] else none)
      true (fun _ => 0)
    = mainEntry ["sample.py", "T.mtx", "micro.dat", "1", "1", "out"]
      (fun s => if s = "1" then some 1 else none)
      (fun p => if p = "T.mtx" then some [[(7 : ℚ)]] else none)
      (fun p => if p = "T.mtx.jumps" then some [([0], [1])] else none)
      true (fun _ => 0) :=
  claim_C10_cache_ignores_values ["sample.py", "T.mtx", "micro.dat", "1", "1", "out"]
    (fun s => if s = "1" then some 1 else none)
    (fun p => if p = "T.mtx" then some [[(1 : ℚ)]] else none)
    (fun p => if p = "T.mtx" then some [[(7 : ℚ)]] else none)
    (fun p => if p = "T.mtx.jumps" then some [([0], [1])] else none)
    true (fun _ => 0) [[(1 : ℚ)]] [[(7 : ℚ)]] [([0], [1])] rfl rfl rfl rfl

end SampleUniform
